import Mathlib

/-!
Verification development for the DeepEar dashboard run-orchestration and
event-broadcast core.

The definitions below are a shallow embedding of the Python sources:
 - `src/dashboard/integration.py` (`WorkflowRunner`, `DashboardCallback`,
   `_run_workflow` and its helpers),
 - `src/dashboard/server.py` (`RunState`, `async_broadcast`,
   `websocket_endpoint`, `execute_workflow`),
 - `src/dashboard/db.py` (`DashboardDB.get_steps`).

Opaque external collaborators (stage functions such as the LLM filter,
the per-signal analyzer, news fetching, chart/price retrieval) are modelled
as function-valued parameters of the environment, exactly as the spec
declares them: fallible calls return `Option`/`Except` values.  Event
contents (log strings) are abstracted; event types, agents, phase progress
numbers and the control flow around them are kept faithful to the source.
-/

namespace DeepEar

/-! ## Definitions -/

/-! ### Dictionary helpers

Python `dict` keyed by strings, modelled as an association list with
replacement on insert.  `dictRemove` models `dict.pop(key, None)`
(extensionally, since Python dict keys are unique). -/

def dictGet {α : Type} (k : String) (l : List (String × α)) : Option α :=
  (l.find? (fun p => p.1 == k)).map (fun p => p.2)

def dictSet {α : Type} (k : String) (v : α) (l : List (String × α)) : List (String × α) :=
  (k, v) :: l.filter (fun p => p.1 != k)

def dictRemove {α : Type} (k : String) (l : List (String × α)) : List (String × α) :=
  l.filter (fun p => p.1 != k)

/-! ### Run Registry (`WorkflowRunner` in `src/dashboard/integration.py`)

`_active_runs : Dict[str, threading.Thread]` is modelled as a map from
run identifier to the liveness of its thread (`Thread.is_alive()`), and
`_cancelled_flags : Dict[str, bool]` as a map to the flag value. -/

structure RunnerState where
  activeRuns : List (String × Bool)
  cancelledFlags : List (String × Bool)
deriving DecidableEq

/-- `WorkflowRunner.is_running(run_id)`:
`run_id in self._active_runs and self._active_runs[run_id].is_alive()`. -/
def isRunningFor (s : RunnerState) (runId : String) : Bool :=
  (dictGet runId s.activeRuns).getD false

/-- `WorkflowRunner.is_cancelled(run_id)`: `self._cancelled_flags.get(run_id, False)`. -/
def isCancelled (s : RunnerState) (runId : String) : Bool :=
  (dictGet runId s.cancelledFlags).getD false

/-- `WorkflowRunner.cancel(run_id)`: sets the cancellation flag if the run is
registered, returns whether a registered run was found. -/
def cancelRun (s : RunnerState) (runId : String) : RunnerState × Bool :=
  if (dictGet runId s.activeRuns).isSome then
    ({ s with cancelledFlags := dictSet runId true s.cancelledFlags }, true)
  else
    (s, false)

/-- `WorkflowRunner.run_async` (integration.py lines 115-138): if the run id is
registered and its thread is alive, raise `RuntimeError` before creating any
thread; otherwise clear the cancellation flag, register a fresh (alive) thread
and start it. -/
def runAsync (s : RunnerState) (runId : String) : Except String RunnerState :=
  if (dictGet runId s.activeRuns).getD false then
    .error ("Run " ++ runId ++ " is already active")
  else
    .ok { activeRuns := dictSet runId true s.activeRuns,
          cancelledFlags := dictSet runId false s.cancelledFlags }

/-- Exit paths of the thread body observed by the wrapper. -/
inductive BodyExit
  | normal
  | raisedException
deriving DecidableEq

/-- The `finally` block of `WorkflowRunner._run_workflow_wrapper` and
`_run_update_wrapper` (integration.py lines 165-184): whatever the body did,
pop the thread handle and the cancellation flag under `self._lock`. -/
def runWorkflowWrapper (s : RunnerState) (runId : String) (exitPath : BodyExit) : RunnerState :=
  match exitPath with
  | .normal =>
      { activeRuns := dictRemove runId s.activeRuns,
        cancelledFlags := dictRemove runId s.cancelledFlags }
  | .raisedException =>
      { activeRuns := dictRemove runId s.activeRuns,
        cancelledFlags := dictRemove runId s.cancelledFlags }

/-! ### Event Bridge (`DashboardCallback` in `src/dashboard/integration.py`) -/

/-- The fields of `DashboardCallback` consulted by `_send_event`: the enabled
flag and whether `_broadcast_func` / `_loop` are set (non-`None`). -/
structure CallbackState where
  enabled : Bool
  hasBroadcastFunc : Bool
  hasLoop : Bool
deriving DecidableEq

/-- Outcome of `asyncio.run_coroutine_threadsafe` as seen by `_send_event`:
either scheduling succeeds, or it raises an exception with a message. -/
inductive ScheduleResult
  | ok
  | raises (msg : String)
deriving DecidableEq

/-- What one call to `_send_event` does; there is no constructor for an
exception escaping to the caller, because `_send_event` has no uncaught path:
the guard returns early and the `try`/`except Exception` around scheduling
turns any scheduling failure into a logged warning. -/
inductive SendOutcome
  | dropped
  | scheduled (data : List (String × String))
  | warnedDiagnostic (msg : String)
deriving DecidableEq

/-- The run id injection of `_send_event`: `current_run_id = run_id_ctx.get()`
followed by `if current_run_id: data["run_id"] = current_run_id` (the empty
string and `None` are both falsy in Python). -/
def injectRunId (runId : Option String) (data : List (String × String)) :
    List (String × String) :=
  match runId with
  | some rid => if rid = "" then data else dictSet "run_id" rid data
  | none => data

/-- `DashboardCallback._send_event` (integration.py lines 36-51). -/
def sendEvent (st : CallbackState) (runId : Option String)
    (data : List (String × String)) (sched : ScheduleResult) : SendOutcome :=
  if !st.enabled || !st.hasBroadcastFunc || !st.hasLoop then
    .dropped
  else
    match sched with
    | .ok => .scheduled (injectRunId runId data)
    | .raises msg => .warnedDiagnostic msg

/-! ### Broadcaster / Run State Cache (`src/dashboard/server.py`)

`RunState` holds the per-process cache (phase, progress, signals, charts keyed
by ticker, latest transmission graph) and the subscriber list.  Event and
chart payloads are abstracted to `Nat` tokens; a `Conn` records whether
`await ws.send_json(...)` succeeds for that websocket. -/

structure Conn where
  connId : Nat
  sendOk : Bool
deriving DecidableEq

structure ServerCache where
  phase : String
  progress : Nat
  signals : List Nat
  charts : List (String × Nat)
  graph : Option Nat
deriving DecidableEq

/-- The message shapes handled by `async_broadcast` (server.py lines 280-312):
the `type` tag with the parts of `data` that the cache update consults. -/
inductive Msg
  | progress (phase : String) (progressValue : Nat)
  | step (payload : Nat)
  | signal (payload : Nat)
  | chart (ticker : String) (payload : Nat)
  | graph (payload : Nat)
  | completed (payload : Nat)
deriving DecidableEq

/-- `RunState.reset(run_id)` (server.py lines 58-65): phase `初始化`,
progress 0, empty signals, charts and graph. -/
def resetCache : ServerCache :=
  { phase := "初始化", progress := 0, signals := [], charts := [], graph := none }

/-- The cache-update half of `async_broadcast`: `progress` sets phase and
progress, `step` is persisted to the store (`db.add_step`) and leaves the
cache alone, `signal` appends, `chart` upserts by ticker when the ticker is
truthy, `graph` replaces; other types fall through. -/
def applyCacheUpdate (c : ServerCache) : Msg → ServerCache
  | .progress ph pr => { c with phase := ph, progress := pr }
  | .step _ => c
  | .signal p => { c with signals := c.signals ++ [p] }
  | .chart t p => if t = "" then c else { c with charts := dictSet t p c.charts }
  | .graph p => { c with graph := some p }
  | .completed _ => c

/-- `RunState.broadcast` (server.py lines 44-56): send to every current
connection; sends succeed exactly for the connections whose channel is
healthy; the failed ones are collected in `dead_connections` and removed
after the send loop, never retried.  Returns the surviving connection list
and the deliveries made. -/
def broadcastMsg (conns : List Conn) (m : Msg) : List Conn × List (Nat × Msg) :=
  (conns.filter (fun c => c.sendOk),
   (conns.filter (fun c => c.sendOk)).map (fun c => (c.connId, m)))

structure ServerState where
  cache : ServerCache
  connections : List Conn
deriving DecidableEq

/-- `async_broadcast(message)` (server.py lines 280-312): update the cache
for the message type, then fan the raw message out to every connection. -/
def asyncBroadcast (st : ServerState) (m : Msg) : ServerState × List (Nat × Msg) :=
  let cache := applyCacheUpdate st.cache m
  let (conns, delivered) := broadcastMsg st.connections m
  ({ cache := cache, connections := conns }, delivered)

/-! ### Subscriber attachment (`websocket_endpoint` in `src/dashboard/server.py`) -/

/-- The two externally visible actions of the attachment path, in the order
the code performs them. -/
inductive AttachAction
  | addSubscriber
  | sendInit
deriving DecidableEq

/-- The fields of the store record returned by `db.get_running_task()` that
the init snapshot reads. -/
structure DbRunInfo where
  runId : String
  status : String
deriving DecidableEq

/-- A message sent to the attaching websocket: the synthesized init snapshot
with its `run_id`, `status`, `signals`, `charts` and `graph` fields. -/
inductive WsSent
  | initMsg (runId : Option String) (status : String) (signals : List Nat)
      (charts : List (String × Nat)) (graph : Option Nat)
deriving DecidableEq

/-- `websocket_endpoint` attachment (server.py lines 98-132): after `accept`,
the websocket is appended to `run_state.connections` (line 101) and only then
is one init message sent (lines 105-132) — populated from the store record
and the cached signals/charts/graph when a run is marked running, and an
empty idle snapshot otherwise.  Returns the new connection list, the
messages sent to the attaching socket, and the action order. -/
def websocketAttach (st : ServerState) (runningTask : Option DbRunInfo) (ws : Conn) :
    (List Conn × List WsSent) × List AttachAction :=
  let conns := st.connections ++ [ws]
  let sent :=
    match runningTask with
    | some run =>
        [WsSent.initMsg (some run.runId) run.status
          st.cache.signals st.cache.charts st.cache.graph]
    | none => [WsSent.initMsg none "idle" [] [] none]
  ((conns, sent), [AttachAction.addSubscriber, AttachAction.sendInit])

/-- The signal payload of a message, used to phrase replay consistency. -/
def signalPayload : Msg → Option Nat
  | .signal p => some p
  | _ => none

/-! ### Step log retrieval (`DashboardDB.get_steps` in `src/dashboard/db.py`) -/

/-- One row of `dashboard_steps`; `stepId` is the `AUTOINCREMENT` primary
key, so rows of one run appear in the table in strictly increasing `stepId`
order. -/
structure DashStep where
  stepId : Nat
  runId : String
deriving DecidableEq

/-- Insertion step for sorting by `id DESC`. -/
def insertDescById (x : DashStep) : List DashStep → List DashStep
  | [] => [x]
  | y :: rest => if y.stepId ≤ x.stepId then x :: y :: rest else y :: insertDescById x rest

/-- `ORDER BY id DESC` of the SQLite query, as an insertion sort. -/
def sortDescById (l : List DashStep) : List DashStep := l.foldr insertDescById []

/-- `DashboardDB.get_steps(run_id, limit)` (db.py lines 117-125):
`SELECT * FROM dashboard_steps WHERE run_id = ? ORDER BY id DESC LIMIT ?`,
then the rows are reversed before being returned. -/
def getSteps (runId : String) (lim : Nat) (table : List DashStep) : List DashStep :=
  ((sortDescById (table.filter (fun st => st.runId == runId))).take lim).reverse

/-! ### Orchestrator (`WorkflowRunner._run_workflow` in `src/dashboard/integration.py`)

The workflow body runs on a dedicated thread.  Cancellation is read through
`check_cancelled`, which consults `self._cancelled_flags.get(run_id, False)`;
since the flag is set asynchronously by `cancel`, its value at the k-th
checkpoint is a parameter `flag : Nat → Bool` of the environment, indexed by
the number of checkpoints performed so far. -/

/-- An item of `raw_news` / `high_value_signals`; its content fields are
opaque to the orchestration logic. -/
structure Item where
  itemId : Nat
deriving DecidableEq

/-- The parts of an `InvestmentSignal` object the orchestrator consults:
the impact tickers (for chart events) and whether a transmission chain is
present (for graph events). -/
structure Sig where
  tickers : List String
  hasChain : Bool
deriving DecidableEq

/-- Result of one `fin_agent.analyze_signal` call: a signal object, `None`,
or a raised exception. -/
inductive AnalyzeRes
  | ok (sig : Sig)
  | noSig
  | raises (msg : String)
deriving DecidableEq

/-- Events emitted through the dashboard callback, with contents abstracted:
phase events keep their progress number, step events keep type and agent. -/
inductive Ev
  | phase (name : String) (progressValue : Nat)
  | step (stepType : String) (agent : String)
  | signal
  | chart (ticker : String)
  | graph
deriving DecidableEq

/-- Thread-local orchestration state: the number of cancellation checkpoints
performed so far and the events emitted so far, in order. -/
structure WFSt where
  checks : Nat
  events : List Ev
deriving DecidableEq

/-- Environment of one `_run_workflow` invocation: the request parameters
and the behaviors of the opaque stage functions. -/
structure WFEnv where
  query : Option String
  intentResult : Option (List String × Bool)
  actualSources : List String
  fetchResult : String → Option Nat
  searchResult : String → Option (List Item)
  sentimentOk : Bool
  dbNews : List Item
  llmFilter : List Item → Except String (List Item)
  analyze : Item → AnalyzeRes
  chartFetch : String → Bool
  reportOk : Bool
  concurrency : Nat
  reorder : List Item → List Item
  flag : Nat → Bool

def emitEv (e : Ev) (s : WFSt) : WFSt := { s with events := s.events ++ [e] }

def emitAll (es : List Ev) (s : WFSt) : WFSt := { s with events := s.events ++ es }

/-- `check_cancelled` (integration.py lines 202-206): read the flag; if set,
emit a warning step and raise `InterruptedError` (the returned `Bool`). -/
def checkCancelled (env : WFEnv) (s : WFSt) : WFSt × Bool :=
  let raisedFlag := env.flag s.checks
  let s' : WFSt := { s with checks := s.checks + 1 }
  if raisedFlag then (emitEv (.step "warning" "System") s', true) else (s', false)

/-- How the `try` body of `_run_workflow` ends: a normal return with the
analyzed signals, one of the early `return` paths, an `InterruptedError`
escaping to the top level, or any other exception escaping. -/
inductive BodyRes
  | finished (analyzed : List Sig)
  | earlyCompleted
  | interrupted
  | raised (msg : String)
deriving DecidableEq

/-- The early-exit pattern (integration.py lines 313-319, 331-337, 556-562):
`cb.phase("完成", 100)`, a warning step, set status completed and return. -/
def earlyCompletionExit (s : WFSt) : WFSt × BodyRes :=
  (emitEv (.step "warning" "System") (emitEv (.phase "完成" 100) s), .earlyCompleted)

/-- Intent interpretation (integration.py lines 226-240), performed only when
a query is supplied: a dict result yields its search queries and specificity,
any failure falls back to `search_queries = [query]`. -/
def stageIntent (env : WFEnv) (s : WFSt) : WFSt × (List String × Bool) :=
  match env.query with
  | none => (s, ([], false))
  | some q =>
    let s := emitEv (.step "thought" "IntentAgent") s
    match env.intentResult with
    | some (qs, spec) =>
        (emitAll [.step "result" "IntentAgent", .step "result" "IntentAgent"] s, (qs, spec))
    | none =>
        (emitEv (.step "error" "IntentAgent") s, ([q], false))

/-- The pure value of the intent stage, determined by the environment alone. -/
def intentQueries (env : WFEnv) : List String × Bool :=
  match env.query with
  | none => ([], false)
  | some q =>
    match env.intentResult with
    | some (qs, spec) => (qs, spec)
    | none => ([q], false)

/-- Source fetch loop (integration.py lines 253-264): per source a
cancellation checkpoint (propagating), a tool-call step, and a result or
error step depending on the fetch outcome. -/
def fetchLoop (env : WFEnv) : List String → WFSt → Except (WFSt × BodyRes) WFSt
  | [], s => .ok s
  | src :: rest, s =>
    match checkCancelled env s with
    | (s, true) => .error (s, .interrupted)
    | (s, false) =>
      let s := emitEv (.step "tool_call" "TrendAgent") s
      let s :=
        match env.fetchResult src with
        | some _ => emitEv (.step "result" "TrendAgent") s
        | none => emitEv (.step "error" "TrendAgent") s
      fetchLoop env rest s

/-- Active search loop (integration.py lines 276-293): per query a
cancellation checkpoint (propagating), a tool-call step, and either the
results appended to `search_signals` with a result step, or an error step. -/
def searchLoop (env : WFEnv) :
    List String → List Item → WFSt → Except (WFSt × BodyRes) (WFSt × List Item)
  | [], acc, s => .ok (s, acc)
  | q :: rest, acc, s =>
    match checkCancelled env s with
    | (s, true) => .error (s, .interrupted)
    | (s, false) =>
      let s := emitEv (.step "tool_call" "TrendAgent") s
      match env.searchResult q with
      | some items =>
          searchLoop env rest (acc ++ items) (emitEv (.step "result" "TrendAgent") s)
      | none =>
          searchLoop env rest acc (emitEv (.step "error" "TrendAgent") s)

/-- The items the search loop accumulates, as a pure function. -/
def pureSearchItems (env : WFEnv) : List String → List Item
  | [] => []
  | q :: rest =>
    match env.searchResult q with
    | some items => items ++ pureSearchItems env rest
    | none => pureSearchItems env rest

/-- The `search_signals` list produced by the search section, as a pure
function of the environment. -/
def searchSignalsOf (env : WFEnv) : List Item :=
  match env.query with
  | none => []
  | some _ =>
    let qsSpec := intentQueries env
    if qsSpec.2 || !qsSpec.1.isEmpty then pureSearchItems env (qsSpec.1.take 2) else []

/-- `raw_news = search_signals + db_news if search_signals else db_news`
(integration.py line 310); both branches equal the concatenation. -/
def mergedNews (env : WFEnv) : List Item := searchSignalsOf env ++ env.dbNews

/-- The search section (integration.py lines 266-295), entered only when a
query was supplied; the condition is `is_specific or len(search_queries) > 0`. -/
def stageSearch (env : WFEnv) (qsSpec : List String × Bool) (s : WFSt) :
    Except (WFSt × BodyRes) (WFSt × List Item) :=
  match env.query with
  | none => .ok (s, [])
  | some _ =>
    if qsSpec.2 || !qsSpec.1.isEmpty then
      let s := emitAll [.phase "主动搜索" 22, .step "thought" "TrendAgent"] s
      match searchLoop env (qsSpec.1.take 2) [] s with
      | .error r => .error r
      | .ok (s, items) => .ok (emitEv (.step "result" "TrendAgent") s, items)
    else .ok (s, [])

/-- The analysis-phase progress expression `50 + int(c / total * 25)` of
integration.py lines 348, 413 and 469, with Python float arithmetic read as
exact rational arithmetic (they agree on every realistic operand range). -/
def analysisProgress (total c : Nat) : Nat := 50 + 25 * c / total

/-- The pre-analysis loop (integration.py lines 346-361): it iterates all
high-value signals before either analysis branch runs, with a propagating
cancellation checkpoint, a phase event carrying the analysis progress
formula, and a thought step per item. -/
def prepLoop (env : WFEnv) (total : Nat) :
    List Item → Nat → WFSt → Except (WFSt × BodyRes) WFSt
  | [], _, s => .ok s
  | _ :: rest, i, s =>
    match checkCancelled env s with
    | (s, true) => .error (s, .interrupted)
    | (s, false) =>
      let s := emitEv (.phase "分析信号" (analysisProgress total (i + 1))) s
      let s := emitEv (.step "thought" "FinAgent") s
      prepLoop env total rest (i + 1) s

/-- Chart emission for the first two impact tickers in the parallel branch
(integration.py lines 427-449): a chart event when the ticker is truthy and
the price fetch and formatting succeed; failures are only logged. -/
def chartEmitsParallel (env : WFEnv) : List String → WFSt → WFSt
  | [], s => s
  | t :: ts, s =>
    let s := if t = "" then s else if env.chartFetch t then emitEv (.chart t) s else s
    chartEmitsParallel env ts s

/-- Chart emission for the first two impact tickers in the sequential branch
(integration.py lines 509-533): additionally a result step per truthy ticker. -/
def chartEmitsSequential (env : WFEnv) : List String → WFSt → WFSt
  | [], s => s
  | t :: ts, s =>
    let s :=
      if t = "" then s
      else
        let s := emitEv (.step "result" "FinAgent") s
        if env.chartFetch t then emitEv (.chart t) s else s
    chartEmitsSequential env ts s

/-- The parallel `as_completed` loop (integration.py lines 405-463).  All
futures are submitted up front; items arrive in completion order.  Each
iteration body sits inside `try ... except Exception`, so the
`InterruptedError` raised by its cancellation checkpoint is caught by that
handler (an error step) and the loop continues — the loop itself never
raises.  On a successful result: increment the completed count, emit the
phase progress event, then signal, step, chart and graph events, and persist
the signal. -/
def parallelLoop (env : WFEnv) (total : Nat) :
    List Item → Nat → List Sig → WFSt → WFSt × Nat × List Sig
  | [], cc, acc, s => (s, cc, acc)
  | item :: rest, cc, acc, s =>
    match checkCancelled env s with
    | (s, true) =>
        parallelLoop env total rest cc acc (emitEv (.step "error" "FinAgent") s)
    | (s, false) =>
      let cc := cc + 1
      let s := emitEv (.phase "分析信号" (analysisProgress total cc)) s
      match env.analyze item with
      | .ok sig =>
          let s := emitEv .signal s
          let s := emitEv (.step "signal" "FinAgent") s
          let s := chartEmitsParallel env (sig.tickers.take 2) s
          let s := if sig.hasChain then emitEv .graph s else s
          parallelLoop env total rest cc (acc ++ [sig]) s
      | .noSig => parallelLoop env total rest cc acc s
      | .raises _ => parallelLoop env total rest cc acc s

/-- The sequential analysis loop (integration.py lines 467-553).  The
checkpoint at the loop head (line 468) propagates; the checkpoint inside the
per-item `try` (line 486) is caught by the item guard (line 552) as an error
step.  A successful analysis emits signal, step, chart and graph events and
appends to `analyzed_signals`; `None` yields a warning step; an exception
yields an error step. -/
def sequentialLoop (env : WFEnv) (total : Nat) :
    List Item → Nat → List Sig → WFSt → Except (WFSt × BodyRes) (WFSt × List Sig)
  | [], _, acc, s => .ok (s, acc)
  | item :: rest, i, acc, s =>
    match checkCancelled env s with
    | (s, true) => .error (s, .interrupted)
    | (s, false) =>
      let s := emitEv (.phase "分析信号" (analysisProgress total (i + 1))) s
      let s := emitEv (.step "thought" "FinAgent") s
      match checkCancelled env s with
      | (s, true) =>
          sequentialLoop env total rest (i + 1) acc (emitEv (.step "error" "FinAgent") s)
      | (s, false) =>
        match env.analyze item with
        | .raises _ =>
            sequentialLoop env total rest (i + 1) acc (emitEv (.step "error" "FinAgent") s)
        | .noSig =>
            sequentialLoop env total rest (i + 1) acc (emitEv (.step "warning" "FinAgent") s)
        | .ok sig =>
            let s := emitEv .signal s
            let s := emitEv (.step "signal" "FinAgent") s
            let s := chartEmitsSequential env (sig.tickers.take 2) s
            let s := if sig.hasChain then emitEv (.step "thought" "FinAgent") s else s
            let s := if sig.hasChain then emitEv .graph s else s
            sequentialLoop env total rest (i + 1) (acc ++ [sig]) s

/-- Report generation (integration.py lines 568-606): phase and step events,
then a `try` whose first statement is a cancellation checkpoint — the
`except Exception` at line 605 catches the `InterruptedError` too, emitting
an error step; a report failure likewise only yields an error step. -/
def reportSection (env : WFEnv) (s : WFSt) : WFSt :=
  let s := emitEv (.phase "报告生成" 85) s
  let s := emitAll [.step "phase" "System", .step "thought" "ReportAgent",
                    .step "thought" "ReportAgent"] s
  match checkCancelled env s with
  | (s, true) => emitEv (.step "error" "ReportAgent") s
  | (s, false) =>
    if env.reportOk then
      emitAll [.step "thought" "ReportAgent", .step "thought" "ReportAgent",
               .step "result" "ReportAgent"] s
    else
      emitEv (.step "error" "ReportAgent") s

/-- The prelude of `_run_workflow` (integration.py lines 209-311): initial
checkpoint, initialization events, intent, source resolution and fetch,
active search, sentiment refresh, and the merge producing `raw_news`,
parametrized by the incoming thread state. -/
def stagePreludeFrom (env : WFEnv) (s : WFSt) : Except (WFSt × BodyRes) (WFSt × List Item) :=
  match checkCancelled env s with
  | (s, true) => .error (s, .interrupted)
  | (s, false) =>
    let s := emitAll [.phase "初始化" 5, .step "system" "System", .step "config" "System",
                      .step "config" "System", .phase "热点扫描" 10,
                      .step "phase" "System"] s
    match stageIntent env s with
    | (s, qsSpec) =>
      let s := emitEv (.phase "多源抓取" 15) s
      match fetchLoop env (env.actualSources.take 5) s with
      | .error r => .error r
      | .ok s =>
        match stageSearch env qsSpec s with
        | .error r => .error r
        | .ok (s, searchSignals) =>
          let s := emitAll [.phase "情绪分析" 28, .step "tool_call" "TrendAgent"] s
          let s := if env.sentimentOk then emitEv (.step "result" "TrendAgent") s
                   else emitEv (.step "error" "TrendAgent") s
          let s := emitEv (.step "thought" "TrendAgent") s
          .ok (s, searchSignals ++ env.dbNews)

/-- The prelude applied to the fresh thread state (zero checkpoints, no
events). -/
def stagePrelude (env : WFEnv) : Except (WFSt × BodyRes) (WFSt × List Item) :=
  stagePreludeFrom env ⟨0, []⟩

/-- The analysis phase (integration.py lines 340-554): the phase event, the
pre-analysis loop, then the parallel branch (`concurrency > 1`) or the
sequential branch. -/
def stageAnalysis (env : WFEnv) (highValue : List Item) (s : WFSt) :
    Except (WFSt × BodyRes) (WFSt × List Sig) :=
  let s := emitAll [.phase "金融分析" 50, .step "phase" "System"] s
  let total := highValue.length
  match prepLoop env total highValue 0 s with
  | .error r => .error r
  | .ok s =>
    if env.concurrency > 1 then
      let s := emitEv (.step "status" "System") s
      match parallelLoop env total (env.reorder highValue) 0 [] s with
      | (s, _cc, acc) => .ok (s, acc)
    else
      sequentialLoop env total highValue 0 [] s

/-- After the analysis branches (integration.py lines 556-614): the
`analyzed_signals` emptiness early exit, report generation, and the final
completion events. -/
def stageTail (env : WFEnv) (analyzed : List Sig) (s : WFSt) : WFSt × BodyRes :=
  if analyzed.isEmpty then earlyCompletionExit s
  else
    let s := reportSection env s
    let s := emitAll [.phase "完成" 100, .step "system" "System",
                      .step "result" "System"] s
    (s, .finished analyzed)

/-- After LLM filtering returned (integration.py lines 326-554): the result
step, signal steps for the first five signals, the `high_value_signals`
emptiness early exit, then the analysis phase and the tail. -/
def stageFromFilter (env : WFEnv) (highValue : List Item) (s : WFSt) : WFSt × BodyRes :=
  let s := emitEv (.step "result" "TrendAgent") s
  let s := emitAll ((highValue.take 5).map (fun _ => Ev.step "signal" "TrendAgent")) s
  if highValue.isEmpty then earlyCompletionExit s
  else
    match stageAnalysis env highValue s with
    | .error r => r
    | .ok (s, analyzed) => stageTail env analyzed s

/-- The whole `try` body of `_run_workflow` (integration.py lines 208-614):
prelude, the `raw_news` emptiness early exit, LLM filtering (an uncaught
exception here escapes to the top level), then the filtered tail. -/
def runBody (env : WFEnv) : WFSt × BodyRes :=
  match stagePrelude env with
  | .error r => r
  | .ok (s, rawNews) =>
    if rawNews.isEmpty then earlyCompletionExit s
    else
      let s := emitAll [.phase "信号筛选" 35, .step "thought" "TrendAgent"] s
      match env.llmFilter rawNews with
      | .error msg => (s, .raised msg)
      | .ok highValue => stageFromFilter env highValue s

/-- Run lifecycle states. -/
inductive RunStatus
  | running
  | completed
  | cancelled
  | failed
deriving DecidableEq

/-- The top-level handlers of `_run_workflow` (integration.py lines 616-629):
`except InterruptedError` emits a warning step and sets status cancelled;
`except Exception` emits an error step and sets status failed; otherwise the
body set status completed. -/
def runWorkflowModel (env : WFEnv) : WFSt × RunStatus :=
  match runBody env with
  | (s, .finished _) => (s, .completed)
  | (s, .earlyCompleted) => (s, .completed)
  | (s, .interrupted) => (emitEv (.step "warning" "System") s, .cancelled)
  | (s, .raised _) => (emitEv (.step "error" "System") s, .failed)

def isSignalEv : Ev → Bool
  | .signal => true
  | _ => false

/-- The number of signal events emitted; `run_state.signals` accumulates
exactly these (server.py line 301), so the persisted `signal_count` equals
this number. -/
def signalCount : List Ev → Nat
  | [] => 0
  | e :: rest => (if isSignalEv e then 1 else 0) + signalCount rest

/-- The progress numbers of the analysis phase events, in emission order. -/
def analysisProgressValues : List Ev → List Nat
  | [] => []
  | .phase nm p :: rest =>
      if nm = "分析信号" then p :: analysisProgressValues rest
      else analysisProgressValues rest
  | _ :: rest => analysisProgressValues rest

/-- The fields of the persisted Run record that `execute_workflow` writes at
finalization. -/
structure PersistedRun where
  status : String
  errorMessage : Option String
  signalCount : Nat
deriving DecidableEq

/-- `execute_workflow` (server.py lines 273-366): start the workflow thread
via `run_async`, poll until the runner reports no live thread, then —
unconditionally, without consulting the thread-side status — persist status
completed with `signal_count = len(run_state.signals)`; the `except` branch
(reached only when `run_async` itself raises, since thread-side exceptions
are caught inside the thread) persists status failed with the untruncated
message.  The second component is the final in-memory `run_state.status`,
which the same lines overwrite. -/
def executeWorkflow (env : WFEnv) (reg : RunnerState) (runId : String) :
    PersistedRun × RunStatus :=
  match runAsync reg runId with
  | .error msg =>
      ({ status := "failed", errorMessage := some msg, signalCount := 0 }, .failed)
  | .ok _ =>
      match runWorkflowModel env with
      | (s, _threadStatus) =>
        ({ status := "completed", errorMessage := none,
           signalCount := signalCount s.events }, .completed)

/-- Concrete environment exhibiting cancellation during the parallel
analysis loop: no query, one source, two high-value signals, concurrency 4,
and the cancellation flag set from the fifth checkpoint on — i.e. exactly
when the `as_completed` loop performs its per-result checks. -/
def envC1 : WFEnv :=
  { query := none
    intentResult := none
    actualSources := ["weibo"]
    fetchResult := fun _ => some 2
    searchResult := fun _ => none
    sentimentOk := true
    dbNews := [⟨0⟩, ⟨1⟩]
    llmFilter := fun l => .ok l
    analyze := fun _ => .ok ⟨[], false⟩
    chartFetch := fun _ => false
    reportOk := true
    concurrency := 4
    reorder := id
    flag := fun n => decide (4 ≤ n) }

/-- Concrete environment whose LLM filtering stage raises an uncaught
exception, so the thread body escapes to the top-level `except Exception`
handler. -/
def envC2 : WFEnv :=
  { query := none
    intentResult := none
    actualSources := []
    fetchResult := fun _ => none
    searchResult := fun _ => none
    sentimentOk := true
    dbNews := [⟨0⟩]
    llmFilter := fun _ => .error "LLM filter crashed"
    analyze := fun _ => .noSig
    chartFetch := fun _ => false
    reportOk := true
    concurrency := 1
    reorder := id
    flag := fun _ => false }

/-- Concrete environment with no query, no sources and an empty stored
backlog: the merge phase yields zero items. -/
def envC6 : WFEnv :=
  { query := none
    intentResult := none
    actualSources := []
    fetchResult := fun _ => none
    searchResult := fun _ => none
    sentimentOk := true
    dbNews := []
    llmFilter := fun l => .ok l
    analyze := fun _ => .noSig
    chartFetch := fun _ => false
    reportOk := true
    concurrency := 1
    reorder := id
    flag := fun _ => false }

/-! ## Theorems -/

/-! ### Dictionary lemmas -/

theorem dictGet_dictRemove {α : Type} (k : String) (l : List (String × α)) :
    dictGet k (dictRemove k l) = none := by
  induction l with
  | nil => rfl
  | cons hd tl ih =>
    by_cases h : hd.1 = k
    · simp only [dictGet, dictRemove] at ih ⊢
      simp [List.filter_cons, h, ih]
    · simp only [dictGet, dictRemove] at ih ⊢
      simp [List.filter_cons, List.find?_cons, h, ih]

theorem dictGet_dictSet {α : Type} (k : String) (v : α) (l : List (String × α)) :
    dictGet k (dictSet k v l) = some v := by
  simp [dictGet, dictSet, List.find?]

theorem find?_filter_ne {α : Type} (k k' : String) (h : k' ≠ k) (l : List (String × α)) :
    (l.filter (fun p => p.1 != k)).find? (fun p => p.1 == k') =
      l.find? (fun p => p.1 == k') := by
  induction l with
  | nil => rfl
  | cons hd tl ih =>
    have hkk : (k == k') = false := by
      simp only [beq_eq_false_iff_ne, ne_eq]
      exact Ne.symm h
    by_cases hh : hd.1 = k
    · have hk : (hd.1 == k') = false := by
        simp only [beq_eq_false_iff_ne, ne_eq, hh]
        exact Ne.symm h
      simp [List.filter_cons, List.find?_cons, hh, hk, hkk, ih]
    · by_cases hk' : hd.1 = k'
      · simp [List.filter_cons, List.find?_cons, hh, hk', h, ih]
      · simp [List.filter_cons, List.find?_cons, hh, hk', h, ih]

theorem dictGet_dictSet_ne {α : Type} (k k' : String) (v : α) (l : List (String × α))
    (h : k' ≠ k) : dictGet k' (dictSet k v l) = dictGet k' l := by
  have hk : (k == k') = false := by
    simp only [beq_eq_false_iff_ne, ne_eq]
    exact Ne.symm h
  unfold dictGet dictSet
  rw [List.find?_cons]
  simp only [hk]
  rw [find?_filter_ne k k' h l]

/-! ### Claim C5 -/

/-- Claim C5: on termination of the wrapped thread body, whether it returned
normally or raised, both the `_active_runs` handle and the `_cancelled_flags`
entry for that run id are removed, so no stale handle or flag remains. -/
theorem wrapper_cleanup_removes_handle_and_flag
    (s : RunnerState) (runId : String) (exitPath : BodyExit) :
    dictGet runId (runWorkflowWrapper s runId exitPath).activeRuns = none ∧
    dictGet runId (runWorkflowWrapper s runId exitPath).cancelledFlags = none := by
  cases exitPath <;>
    exact ⟨dictGet_dictRemove runId s.activeRuns, dictGet_dictRemove runId s.cancelledFlags⟩

/-! ### Claim C3 -/

/-- Claim C3: while a run id has a live backing thread, a second
`run_async` with that id fails with the already-active `RuntimeError` (and no
new thread is registered, since the error is raised before the `Thread` is
created); once the wrapper cleanup has run for any exit path, `run_async`
with the same id succeeds again. -/
theorem runAsync_uniqueness (s : RunnerState) (runId : String) :
    (isRunningFor s runId = true →
      runAsync s runId = .error ("Run " ++ runId ++ " is already active")) ∧
    (∀ exitPath, runAsync (runWorkflowWrapper s runId exitPath) runId =
      .ok { activeRuns := dictSet runId true (runWorkflowWrapper s runId exitPath).activeRuns,
            cancelledFlags :=
              dictSet runId false (runWorkflowWrapper s runId exitPath).cancelledFlags }) := by
  constructor
  · intro h
    unfold runAsync
    unfold isRunningFor at h
    simp [h]
  · intro exitPath
    have h := (wrapper_cleanup_removes_handle_and_flag s runId exitPath).1
    unfold runAsync
    simp [h]

/-- Witness for C3 at a concrete state: run id `r1` has a live thread, the
second start fails; after cleanup it succeeds. -/
theorem runAsync_uniqueness_witness :
    runAsync ⟨[("r1", true)], [("r1", false)]⟩ "r1" = .error "Run r1 is already active" ∧
    runAsync (runWorkflowWrapper ⟨[("r1", true)], [("r1", false)]⟩ "r1" BodyExit.normal) "r1" =
      .ok { activeRuns := [("r1", true)], cancelledFlags := [("r1", false)] } := by
  refine ⟨(runAsync_uniqueness ⟨[("r1", true)], [("r1", false)]⟩ "r1").1 (by decide), ?_⟩
  have h := (runAsync_uniqueness ⟨[("r1", true)], [("r1", false)]⟩ "r1").2 BodyExit.normal
  rw [h]
  rfl

/-! ### Claim C8 -/

/-- Claim C8: if the bridge is disabled or its loop or sink is unset, the
event is dropped and the call returns normally; a scheduling exception is
caught and surfaced only as a logged diagnostic.  `sendEvent` is a total
function into `SendOutcome`, which has no constructor for an exception
escaping to the caller, so emission never raises into business logic. -/
theorem sendEvent_never_raises (st : CallbackState) (runId : Option String)
    (data : List (String × String)) (sched : ScheduleResult) :
    ((st.enabled = false ∨ st.hasBroadcastFunc = false ∨ st.hasLoop = false) →
      sendEvent st runId data sched = SendOutcome.dropped) ∧
    (∀ msg, sched = ScheduleResult.raises msg →
      sendEvent st runId data sched = SendOutcome.dropped ∨
      sendEvent st runId data sched = SendOutcome.warnedDiagnostic msg) := by
  constructor
  · intro h
    rcases h with h | h | h <;> simp [sendEvent, h]
  · intro msg hmsg
    subst hmsg
    by_cases he : st.enabled
    · by_cases hf : st.hasBroadcastFunc
      · by_cases hl : st.hasLoop
        · right; simp [sendEvent, he, hf, hl]
        · left; simp [sendEvent, he, hf, hl]
      · left; simp [sendEvent, he, hf]
    · left; simp [sendEvent, he]

/-- Witness for C8 at concrete states: a disabled bridge drops the event, and
an enabled bridge whose scheduling raises logs the diagnostic instead of
raising. -/
theorem sendEvent_never_raises_witness :
    sendEvent ⟨false, true, true⟩ none [] ScheduleResult.ok = SendOutcome.dropped ∧
    (sendEvent ⟨true, true, true⟩ none [] (ScheduleResult.raises "loop closed") =
        SendOutcome.dropped ∨
      sendEvent ⟨true, true, true⟩ none [] (ScheduleResult.raises "loop closed") =
        SendOutcome.warnedDiagnostic "loop closed") :=
  ⟨(sendEvent_never_raises ⟨false, true, true⟩ none [] ScheduleResult.ok).1 (Or.inl rfl),
   (sendEvent_never_raises ⟨true, true, true⟩ none []
      (ScheduleResult.raises "loop closed")).2 "loop closed" rfl⟩

/-! ### Claim C9 -/

/-- Claim C9: `publish` updates the cache per event type (progress sets
phase/progress, signal appends, chart upserts by ticker leaving other tickers
untouched, graph replaces), fans the raw event out to every current
subscriber, removes a subscriber whose send fails without retrying it, and a
subsequent publish still reaches every surviving subscriber. -/
theorem publish_cache_and_fanout (st : ServerState) (m : Msg) :
    (∀ ph pr, m = Msg.progress ph pr →
      (asyncBroadcast st m).1.cache.phase = ph ∧
      (asyncBroadcast st m).1.cache.progress = pr) ∧
    (∀ p, m = Msg.signal p →
      (asyncBroadcast st m).1.cache.signals = st.cache.signals ++ [p]) ∧
    (∀ t p, m = Msg.chart t p → t ≠ "" →
      dictGet t (asyncBroadcast st m).1.cache.charts = some p ∧
      ∀ t', t' ≠ t →
        dictGet t' (asyncBroadcast st m).1.cache.charts = dictGet t' st.cache.charts) ∧
    (∀ p, m = Msg.graph p → (asyncBroadcast st m).1.cache.graph = some p) ∧
    (asyncBroadcast st m).2 =
      (st.connections.filter (fun c => c.sendOk)).map (fun c => (c.connId, m)) ∧
    (asyncBroadcast st m).1.connections = st.connections.filter (fun c => c.sendOk) ∧
    (∀ a, a ∈ st.connections → a.sendOk = false →
      a ∉ (asyncBroadcast st m).1.connections) ∧
    (∀ b m', b ∈ st.connections → b.sendOk = true →
      (b.connId, m') ∈ (asyncBroadcast (asyncBroadcast st m).1 m').2) := by
  refine ⟨?_, ?_, ?_, ?_, rfl, rfl, ?_, ?_⟩
  · intro ph pr h; subst h; exact ⟨rfl, rfl⟩
  · intro p h; subst h; rfl
  · intro t p h ht; subst h
    constructor
    · show dictGet t (applyCacheUpdate st.cache (Msg.chart t p)).charts = some p
      simp only [applyCacheUpdate, if_neg ht]
      exact dictGet_dictSet t p st.cache.charts
    · intro t' ht'
      show dictGet t' (applyCacheUpdate st.cache (Msg.chart t p)).charts =
        dictGet t' st.cache.charts
      simp only [applyCacheUpdate, if_neg ht]
      exact dictGet_dictSet_ne t t' p st.cache.charts ht'
  · intro p h; subst h; rfl
  · intro a ha hdead hmem
    have := (List.mem_filter.mp hmem).2
    rw [hdead] at this
    exact absurd this (by simp)
  · intro b m' hb hok
    have hmem : b ∈ (asyncBroadcast st m).1.connections :=
      List.mem_filter.mpr ⟨hb, hok⟩
    show (b.connId, m') ∈
      ((asyncBroadcast st m).1.connections.filter (fun c => c.sendOk)).map
        (fun c => (c.connId, m'))
    exact List.mem_map.mpr ⟨b, List.mem_filter.mpr ⟨hmem, hok⟩, rfl⟩

/-- Witness for C9 at a concrete state: a chart event is upserted under its
ticker, the dead subscriber is removed, and a following signal event still
reaches the healthy subscriber. -/
theorem publish_cache_and_fanout_witness :
    dictGet "AAPL"
      (asyncBroadcast ⟨resetCache, [⟨1, false⟩, ⟨2, true⟩]⟩
        (Msg.chart "AAPL" 7)).1.cache.charts = some 7 ∧
    (⟨1, false⟩ : Conn) ∉
      (asyncBroadcast ⟨resetCache, [⟨1, false⟩, ⟨2, true⟩]⟩
        (Msg.chart "AAPL" 7)).1.connections ∧
    ((2 : Nat), Msg.signal 5) ∈
      (asyncBroadcast
        (asyncBroadcast ⟨resetCache, [⟨1, false⟩, ⟨2, true⟩]⟩ (Msg.chart "AAPL" 7)).1
        (Msg.signal 5)).2 := by
  have h := publish_cache_and_fanout ⟨resetCache, [⟨1, false⟩, ⟨2, true⟩]⟩ (Msg.chart "AAPL" 7)
  exact ⟨(h.2.2.1 "AAPL" 7 rfl (by decide)).1,
         h.2.2.2.2.2.2.1 ⟨1, false⟩ (by decide) rfl,
         h.2.2.2.2.2.2.2 ⟨2, true⟩ (Msg.signal 5) (by decide) rfl⟩

/-! ### Claim C4 -/

theorem foldl_cache_signals (msgs : List Msg) (c : ServerCache) :
    (msgs.foldl applyCacheUpdate c).signals = c.signals ++ msgs.filterMap signalPayload := by
  induction msgs generalizing c with
  | nil => simp
  | cons m rest ih =>
    cases m with
    | chart t p =>
      simp only [List.foldl_cons, List.filterMap_cons, applyCacheUpdate, signalPayload]
      split <;> simp [ih]
    | signal p => simp [applyCacheUpdate, signalPayload, ih]
    | progress ph pr => simp [applyCacheUpdate, signalPayload, ih]
    | step p => simp [applyCacheUpdate, signalPayload, ih]
    | graph p => simp [applyCacheUpdate, signalPayload, ih]
    | completed p => simp [applyCacheUpdate, signalPayload, ih]

/-- Counterexample to claim C4 as stated: in the code the attachment sequence
is append-to-fan-out-set first, init message second — not init first. -/
theorem attach_order_counterexample :
    ¬ ((websocketAttach ⟨resetCache, []⟩ none ⟨0, true⟩).2 =
        [AttachAction.sendInit, AttachAction.addSubscriber]) := by
  decide

/-- Claim C4 (amended): exactly one init message is sent per attachment, but
the subscriber is appended to the fan-out set first and the init snapshot is
sent second.  The snapshot carries the cached signals/charts/graph when the
store reports a running task (an idle snapshot otherwise), and when the cache
is the fold of the M published events over the reset state, the snapshot's
signal list is exactly the signal payloads of those M events in order. -/
theorem attach_appends_then_snapshots (st : ServerState) (task : Option DbRunInfo) (ws : Conn) :
    (websocketAttach st task ws).2 = [AttachAction.addSubscriber, AttachAction.sendInit] ∧
    (websocketAttach st task ws).1.1 = st.connections ++ [ws] ∧
    (∀ run, task = some run →
      (websocketAttach st task ws).1.2 =
        [WsSent.initMsg (some run.runId) run.status
          st.cache.signals st.cache.charts st.cache.graph]) ∧
    (task = none →
      (websocketAttach st task ws).1.2 = [WsSent.initMsg none "idle" [] [] none]) ∧
    (∀ (msgs : List Msg) (run : DbRunInfo), task = some run →
      st.cache = msgs.foldl applyCacheUpdate resetCache →
      (websocketAttach st task ws).1.2 =
        [WsSent.initMsg (some run.runId) run.status
          (msgs.filterMap signalPayload) st.cache.charts st.cache.graph]) := by
  refine ⟨rfl, rfl, ?_, ?_, ?_⟩
  · intro run h; subst h; rfl
  · intro h; subst h; rfl
  · intro msgs run htask hcache
    subst htask
    have hs : st.cache.signals = msgs.filterMap signalPayload := by
      rw [hcache, foldl_cache_signals]
      simp [resetCache]
    show (websocketAttach st (some run) ws).1.2 = _
    rw [show (websocketAttach st (some run) ws).1.2 =
      [WsSent.initMsg (some run.runId) run.status
        st.cache.signals st.cache.charts st.cache.graph] from rfl, hs]

/-- Witness for the amended C4: a subscriber attaching after the events
`[signal 3, chart T 4, signal 9]` receives one init message whose signal list
is exactly `[3, 9]`, after having been appended to the fan-out set. -/
theorem attach_appends_then_snapshots_witness :
    (websocketAttach
        ⟨[Msg.signal 3, Msg.chart "T" 4, Msg.signal 9].foldl applyCacheUpdate resetCache, []⟩
        (some ⟨"run1", "running"⟩) ⟨7, true⟩).1.1 = [⟨7, true⟩] ∧
    (websocketAttach
        ⟨[Msg.signal 3, Msg.chart "T" 4, Msg.signal 9].foldl applyCacheUpdate resetCache, []⟩
        (some ⟨"run1", "running"⟩) ⟨7, true⟩).1.2 =
      [WsSent.initMsg (some "run1") "running" [3, 9]
        ([Msg.signal 3, Msg.chart "T" 4, Msg.signal 9].foldl applyCacheUpdate resetCache).charts
        ([Msg.signal 3, Msg.chart "T" 4, Msg.signal 9].foldl applyCacheUpdate resetCache).graph] := by
  have h := attach_appends_then_snapshots
    ⟨[Msg.signal 3, Msg.chart "T" 4, Msg.signal 9].foldl applyCacheUpdate resetCache, []⟩
    (some ⟨"run1", "running"⟩) ⟨7, true⟩
  refine ⟨h.2.1, ?_⟩
  have hfold := h.2.2.2.2 [Msg.signal 3, Msg.chart "T" 4, Msg.signal 9] ⟨"run1", "running"⟩ rfl rfl
  rw [hfold]
  rfl

/-! ### Claim C10 -/

theorem insertDescById_of_lt (x : DashStep) (l : List DashStep)
    (h : ∀ y ∈ l, x.stepId < y.stepId) : insertDescById x l = l ++ [x] := by
  induction l with
  | nil => rfl
  | cons y rest ih =>
    have hy := h y (by simp)
    have hle : ¬ (y.stepId ≤ x.stepId) := by omega
    simp only [insertDescById, if_neg hle, List.cons_append]
    rw [ih (fun z hz => h z (by simp [hz]))]

theorem sortDescById_of_ascending (l : List DashStep)
    (h : l.Pairwise (fun a b => a.stepId < b.stepId)) : sortDescById l = l.reverse := by
  induction l with
  | nil => rfl
  | cons x rest ih =>
    rw [List.pairwise_cons] at h
    have hstep : sortDescById (x :: rest) = insertDescById x (sortDescById rest) := rfl
    rw [hstep, ih h.2,
      insertDescById_of_lt x rest.reverse (fun y hy => h.1 y (List.mem_reverse.mp hy))]
    simp

/-- Claim C10: `get_steps(run_id, L)` returns at most `L` steps and, assuming
the autoincrement invariant (the run's rows are strictly ascending by id),
returns exactly the suffix of the run's step log — the `L` most recently
appended steps — in ascending id order. -/
theorem getSteps_recent_tail (runId : String) (lim : Nat) (table : List DashStep)
    (hasc : (table.filter (fun st => st.runId == runId)).Pairwise
      (fun a b => a.stepId < b.stepId)) :
    (getSteps runId lim table).length ≤ lim ∧
    getSteps runId lim table =
      (table.filter (fun st => st.runId == runId)).drop
        ((table.filter (fun st => st.runId == runId)).length - lim) ∧
    (getSteps runId lim table).Pairwise (fun a b => a.stepId < b.stepId) := by
  have hmain : getSteps runId lim table =
      (table.filter (fun st => st.runId == runId)).drop
        ((table.filter (fun st => st.runId == runId)).length - lim) := by
    unfold getSteps
    rw [sortDescById_of_ascending _ hasc]
    rw [← List.rtake_eq_reverse_take_reverse]
    rfl
  refine ⟨?_, hmain, ?_⟩
  · unfold getSteps
    rw [List.length_reverse, List.length_take]
    exact min_le_left _ _
  · rw [hmain]
    exact hasc.sublist (List.drop_sublist _ _)

/-- Witness for C10: a table with five interleaved steps of two runs; with
limit 2 the query returns the two most recently appended steps of `runA`,
in ascending id order. -/
theorem getSteps_recent_tail_witness :
    getSteps "runA" 2 [⟨1, "runA"⟩, ⟨2, "runB"⟩, ⟨3, "runA"⟩, ⟨4, "runA"⟩, ⟨5, "runB"⟩] =
      [⟨3, "runA"⟩, ⟨4, "runA"⟩] ∧
    (getSteps "runA" 2
      [⟨1, "runA"⟩, ⟨2, "runB"⟩, ⟨3, "runA"⟩, ⟨4, "runA"⟩, ⟨5, "runB"⟩]).length ≤ 2 := by
  have h := getSteps_recent_tail "runA" 2
    [⟨1, "runA"⟩, ⟨2, "runB"⟩, ⟨3, "runA"⟩, ⟨4, "runA"⟩, ⟨5, "runB"⟩] (by decide)
  refine ⟨?_, h.1⟩
  rw [h.2.1]
  decide

/-! ### Claim C1 -/

/-- Claim C1 (bug evidence): with the cancellation flag set exactly when the
parallel `as_completed` loop performs its per-result checkpoints (checkpoint
indices 4 and 5 of `envC1`), the `InterruptedError` raised at those
checkpoints is absorbed by the loop's own `except Exception` handler — two
FinAgent error steps are logged, the loop keeps consuming results — and the
run terminates with status completed, not cancelled.  Under the same flag
timing, sequential mode (concurrency 1) does reach cancelled, because its
loop-head checkpoint propagates to the top-level handler. -/
theorem parallel_cancellation_absorbed :
    (runWorkflowModel envC1).2 = RunStatus.completed ∧
    envC1.flag 4 = true ∧
    envC1.flag 5 = true ∧
    (runWorkflowModel envC1).1.checks = 6 ∧
    ((runWorkflowModel envC1).1.events.countP
      (fun e => e == Ev.step "error" "FinAgent")) = 2 ∧
    (runWorkflowModel { envC1 with concurrency := 1 }).2 = RunStatus.cancelled := by
  decide

/-! ### Claim C2 -/

/-- Claim C2 (bug evidence): in `envC2` the LLM filtering stage raises, the
exception escapes to the top-level handler of the workflow thread and the
thread-side status becomes failed — yet `execute_workflow` persists the Run
record with status completed and no error message, and overwrites the
in-memory status with completed, because its finalization never consults the
thread-side outcome. -/
theorem failed_thread_persisted_completed :
    (runWorkflowModel envC2).2 = RunStatus.failed ∧
    (executeWorkflow envC2 ⟨[], []⟩ "20250101_000000").1.status = "completed" ∧
    (executeWorkflow envC2 ⟨[], []⟩ "20250101_000000").1.errorMessage = none ∧
    (executeWorkflow envC2 ⟨[], []⟩ "20250101_000000").2 = RunStatus.completed := by
  decide

/-! ### Event accounting lemmas -/

theorem signalCount_append (a b : List Ev) :
    signalCount (a ++ b) = signalCount a + signalCount b := by
  induction a with
  | nil => simp [signalCount]
  | cons e rest ih =>
    simp only [List.cons_append, signalCount, List.append_eq, ih, Nat.add_assoc]

theorem signalCount_emitEv (e : Ev) (s : WFSt) :
    signalCount (emitEv e s).events =
      signalCount s.events + (if isSignalEv e then 1 else 0) := by
  simp [emitEv, signalCount_append, signalCount]

theorem signalCount_emitAll (es : List Ev) (s : WFSt) :
    signalCount (emitAll es s).events = signalCount s.events + signalCount es := by
  simp [emitAll, signalCount_append]

theorem signalCount_emitEv_step (t ag : String) (s : WFSt) :
    signalCount (emitEv (.step t ag) s).events = signalCount s.events := by
  simp [signalCount_emitEv, isSignalEv]

theorem signalCount_emitEv_phase (nm : String) (p : Nat) (s : WFSt) :
    signalCount (emitEv (.phase nm p) s).events = signalCount s.events := by
  simp [signalCount_emitEv, isSignalEv]

theorem signalCount_checkCancelled (env : WFEnv) (s : WFSt) :
    signalCount (checkCancelled env s).1.events = signalCount s.events := by
  unfold checkCancelled
  by_cases h : env.flag s.checks <;> simp [h, signalCount_emitEv_step]

theorem checkCancelled_flagFalse (env : WFEnv) (hflag : ∀ n, env.flag n = false) (s : WFSt) :
    checkCancelled env s = ({ s with checks := s.checks + 1 }, false) := by
  unfold checkCancelled
  simp [hflag]

theorem signalCount_map_steps {α : Type} (l : List α) (t ag : String) :
    signalCount (l.map (fun _ => Ev.step t ag)) = 0 := by
  induction l with
  | nil => rfl
  | cons _ rest ih =>
    simp only [List.map_cons, signalCount, isSignalEv, ih]
    simp

theorem earlyCompletionExit_spec (s : WFSt) :
    (earlyCompletionExit s).2 = BodyRes.earlyCompleted ∧
    signalCount (earlyCompletionExit s).1.events = signalCount s.events := by
  unfold earlyCompletionExit
  exact ⟨rfl, by simp [signalCount_emitEv_step, signalCount_emitEv_phase]⟩

/-! ### Stage lemmas (no cancellation, zero signal events) -/

theorem stageIntent_spec (env : WFEnv) (s : WFSt) :
    (stageIntent env s).2 = intentQueries env ∧
    signalCount (stageIntent env s).1.events = signalCount s.events := by
  unfold stageIntent intentQueries
  cases env.query with
  | none => exact ⟨rfl, rfl⟩
  | some q =>
    cases hres : env.intentResult with
    | none => simp [signalCount_emitEv_step]
    | some qs =>
      cases qs with
      | mk a b =>
        constructor
        · simp
        · simp [signalCount_emitAll, signalCount_emitEv_step, signalCount, isSignalEv]

theorem fetchLoop_flagFalse (env : WFEnv) (hflag : ∀ n, env.flag n = false) :
    ∀ (srcs : List String) (s : WFSt),
      ∃ s', fetchLoop env srcs s = .ok s' ∧
        signalCount s'.events = signalCount s.events := by
  intro srcs
  induction srcs with
  | nil => intro s; exact ⟨s, rfl, rfl⟩
  | cons src rest ih =>
    intro s
    have hc := checkCancelled_flagFalse env hflag s
    cases hres : env.fetchResult src with
    | some n =>
      obtain ⟨s', h1, h2⟩ := ih (emitEv (.step "result" "TrendAgent")
        (emitEv (.step "tool_call" "TrendAgent") { s with checks := s.checks + 1 }))
      refine ⟨s', ?_, ?_⟩
      · simp only [fetchLoop, hc, hres]
        exact h1
      · rw [h2]
        simp [signalCount_emitEv_step]
    | none =>
      obtain ⟨s', h1, h2⟩ := ih (emitEv (.step "error" "TrendAgent")
        (emitEv (.step "tool_call" "TrendAgent") { s with checks := s.checks + 1 }))
      refine ⟨s', ?_, ?_⟩
      · simp only [fetchLoop, hc, hres]
        exact h1
      · rw [h2]
        simp [signalCount_emitEv_step]

theorem searchLoop_flagFalse (env : WFEnv) (hflag : ∀ n, env.flag n = false) :
    ∀ (qs : List String) (acc : List Item) (s : WFSt),
      ∃ s', searchLoop env qs acc s = .ok (s', acc ++ pureSearchItems env qs) ∧
        signalCount s'.events = signalCount s.events := by
  intro qs
  induction qs with
  | nil =>
    intro acc s
    exact ⟨s, by simp [searchLoop, pureSearchItems], rfl⟩
  | cons q rest ih =>
    intro acc s
    have hc := checkCancelled_flagFalse env hflag s
    cases hres : env.searchResult q with
    | some items =>
      obtain ⟨s', h1, h2⟩ := ih (acc ++ items) (emitEv (.step "result" "TrendAgent")
        (emitEv (.step "tool_call" "TrendAgent") { s with checks := s.checks + 1 }))
      refine ⟨s', ?_, ?_⟩
      · simp only [searchLoop, hc, hres]
        rw [h1]
        simp [pureSearchItems, hres, List.append_assoc]
      · rw [h2]
        simp [signalCount_emitEv_step]
    | none =>
      obtain ⟨s', h1, h2⟩ := ih acc (emitEv (.step "error" "TrendAgent")
        (emitEv (.step "tool_call" "TrendAgent") { s with checks := s.checks + 1 }))
      refine ⟨s', ?_, ?_⟩
      · simp only [searchLoop, hc, hres]
        rw [h1]
        simp [pureSearchItems, hres]
      · rw [h2]
        simp [signalCount_emitEv_step]

theorem stageSearch_flagFalse (env : WFEnv) (hflag : ∀ n, env.flag n = false) (s : WFSt) :
    ∃ s', stageSearch env (intentQueries env) s = .ok (s', searchSignalsOf env) ∧
      signalCount s'.events = signalCount s.events := by
  unfold stageSearch searchSignalsOf
  cases hq : env.query with
  | none => exact ⟨s, rfl, rfl⟩
  | some q =>
    cases hcond : ((intentQueries env).2 || !(intentQueries env).1.isEmpty) with
    | false => exact ⟨s, by simp [hcond], rfl⟩
    | true =>
      obtain ⟨s', h1, h2⟩ := searchLoop_flagFalse env hflag ((intentQueries env).1.take 2) []
        (emitAll [.phase "主动搜索" 22, .step "thought" "TrendAgent"] s)
      refine ⟨emitEv (.step "result" "TrendAgent") s', ?_, ?_⟩
      · simp only [hcond, if_true]
        rw [h1]
        simp
      · rw [signalCount_emitEv_step, h2]
        simp [signalCount_emitAll, signalCount, isSignalEv]

theorem stagePreludeFrom_flagFalse (env : WFEnv) (hflag : ∀ n, env.flag n = false)
    (s0 : WFSt) :
    ∃ s, stagePreludeFrom env s0 = .ok (s, mergedNews env) ∧
      signalCount s.events = signalCount s0.events := by
  unfold stagePreludeFrom
  have hc := checkCancelled_flagFalse env hflag s0
  rcases hsi : stageIntent env (emitAll [.phase "初始化" 5, .step "system" "System",
      .step "config" "System", .step "config" "System", .phase "热点扫描" 10,
      .step "phase" "System"] { s0 with checks := s0.checks + 1 }) with ⟨s2, qsSpec⟩
  have hsiSpec := stageIntent_spec env (emitAll [.phase "初始化" 5, .step "system" "System",
      .step "config" "System", .step "config" "System", .phase "热点扫描" 10,
      .step "phase" "System"] { s0 with checks := s0.checks + 1 })
  rw [hsi] at hsiSpec
  obtain ⟨hqs, hs2cnt⟩ := hsiSpec
  dsimp only at hqs hs2cnt
  subst hqs
  obtain ⟨s3, h3, h3cnt⟩ := fetchLoop_flagFalse env hflag (env.actualSources.take 5)
    (emitEv (.phase "多源抓取" 15) s2)
  obtain ⟨s4, h4, h4cnt⟩ := stageSearch_flagFalse env hflag s3
  refine ⟨emitEv (.step "thought" "TrendAgent")
      (if env.sentimentOk then
        emitEv (.step "result" "TrendAgent")
          (emitAll [.phase "情绪分析" 28, .step "tool_call" "TrendAgent"] s4)
      else
        emitEv (.step "error" "TrendAgent")
          (emitAll [.phase "情绪分析" 28, .step "tool_call" "TrendAgent"] s4)), ?_, ?_⟩
  · simp only [hc, hsi, h3, h4, mergedNews]
  · by_cases hsent : env.sentimentOk <;>
      simp [hsent, signalCount_emitEv_step, signalCount_emitEv_phase, h4cnt, h3cnt,
        hs2cnt, signalCount_emitAll, signalCount, isSignalEv]

theorem stagePrelude_flagFalse (env : WFEnv) (hflag : ∀ n, env.flag n = false) :
    ∃ s, stagePrelude env = .ok (s, mergedNews env) ∧ signalCount s.events = 0 := by
  obtain ⟨s, h1, h2⟩ := stagePreludeFrom_flagFalse env hflag ⟨0, []⟩
  exact ⟨s, h1, by rw [h2]; rfl⟩

theorem prepLoop_flagFalse (env : WFEnv) (hflag : ∀ n, env.flag n = false) (total : Nat) :
    ∀ (items : List Item) (i : Nat) (s : WFSt),
      ∃ s', prepLoop env total items i s = .ok s' ∧
        signalCount s'.events = signalCount s.events := by
  intro items
  induction items with
  | nil => intro i s; exact ⟨s, rfl, rfl⟩
  | cons item rest ih =>
    intro i s
    have hc := checkCancelled_flagFalse env hflag s
    obtain ⟨s', h1, h2⟩ := ih (i + 1) (emitEv (.step "thought" "FinAgent")
      (emitEv (.phase "分析信号" (analysisProgress total (i + 1)))
        { s with checks := s.checks + 1 }))
    refine ⟨s', ?_, ?_⟩
    · simp only [prepLoop, hc]
      exact h1
    · rw [h2]
      simp [signalCount_emitEv_step, signalCount_emitEv_phase]

theorem parallelLoop_noSuccess (env : WFEnv)
    (hana : ∀ item sig, env.analyze item ≠ AnalyzeRes.ok sig) (total : Nat) :
    ∀ (items : List Item) (cc : Nat) (acc : List Sig) (s : WFSt),
      (parallelLoop env total items cc acc s).2.2 = acc ∧
      signalCount (parallelLoop env total items cc acc s).1.events =
        signalCount s.events := by
  intro items
  induction items with
  | nil => intro cc acc s; exact ⟨rfl, rfl⟩
  | cons item rest ih =>
    intro cc acc s
    rcases hc : checkCancelled env s with ⟨s1, b⟩
    have hcs : signalCount s1.events = signalCount s.events := by
      have h := signalCount_checkCancelled env s
      rw [hc] at h
      exact h
    cases b with
    | true =>
      obtain ⟨ha, hb⟩ := ih cc acc (emitEv (.step "error" "FinAgent") s1)
      refine ⟨?_, ?_⟩
      · simp only [parallelLoop, hc]
        exact ha
      · simp only [parallelLoop, hc]
        rw [hb, signalCount_emitEv_step, hcs]
    | false =>
      cases hr : env.analyze item with
      | ok sig => exact absurd hr (hana item sig)
      | noSig =>
        obtain ⟨ha, hb⟩ := ih (cc + 1) acc
          (emitEv (.phase "分析信号" (analysisProgress total (cc + 1))) s1)
        refine ⟨?_, ?_⟩
        · simp only [parallelLoop, hc, hr]
          exact ha
        · simp only [parallelLoop, hc, hr]
          rw [hb, signalCount_emitEv_phase, hcs]
      | raises msg =>
        obtain ⟨ha, hb⟩ := ih (cc + 1) acc
          (emitEv (.phase "分析信号" (analysisProgress total (cc + 1))) s1)
        refine ⟨?_, ?_⟩
        · simp only [parallelLoop, hc, hr]
          exact ha
        · simp only [parallelLoop, hc, hr]
          rw [hb, signalCount_emitEv_phase, hcs]

theorem sequentialLoop_noSuccess (env : WFEnv) (hflag : ∀ n, env.flag n = false)
    (hana : ∀ item sig, env.analyze item ≠ AnalyzeRes.ok sig) (total : Nat) :
    ∀ (items : List Item) (i : Nat) (acc : List Sig) (s : WFSt),
      ∃ s', sequentialLoop env total items i acc s = .ok (s', acc) ∧
        signalCount s'.events = signalCount s.events := by
  intro items
  induction items with
  | nil => intro i acc s; exact ⟨s, rfl, rfl⟩
  | cons item rest ih =>
    intro i acc s
    have hc1 := checkCancelled_flagFalse env hflag s
    cases hr : env.analyze item with
    | ok sig => exact absurd hr (hana item sig)
    | noSig =>
      obtain ⟨s', h1, h2⟩ := ih (i + 1) acc (emitEv (.step "warning" "FinAgent") _)
      refine ⟨s', ?_, ?_⟩
      · simp only [sequentialLoop, hc1, checkCancelled_flagFalse env hflag, hr]
        exact h1
      · rw [h2]
        simp [signalCount_emitEv_step, signalCount_emitEv_phase]
    | raises msg =>
      obtain ⟨s', h1, h2⟩ := ih (i + 1) acc (emitEv (.step "error" "FinAgent") _)
      refine ⟨s', ?_, ?_⟩
      · simp only [sequentialLoop, hc1, checkCancelled_flagFalse env hflag, hr]
        exact h1
      · rw [h2]
        simp [signalCount_emitEv_step, signalCount_emitEv_phase]

theorem stageAnalysis_noSuccess (env : WFEnv) (hflag : ∀ n, env.flag n = false)
    (hana : ∀ item sig, env.analyze item ≠ AnalyzeRes.ok sig)
    (highValue : List Item) (s : WFSt) :
    ∃ s', stageAnalysis env highValue s = .ok (s', []) ∧
      signalCount s'.events = signalCount s.events := by
  unfold stageAnalysis
  obtain ⟨s1, h1, h1cnt⟩ := prepLoop_flagFalse env hflag highValue.length highValue 0
    (emitAll [.phase "金融分析" 50, .step "phase" "System"] s)
  by_cases hcc : env.concurrency > 1
  · rcases hp : parallelLoop env highValue.length (env.reorder highValue) 0 []
        (emitEv (.step "status" "System") s1) with ⟨s2, cc, acc⟩
    have hpar := parallelLoop_noSuccess env hana highValue.length (env.reorder highValue) 0 []
      (emitEv (.step "status" "System") s1)
    rw [hp] at hpar
    obtain ⟨hacc, hcnt⟩ := hpar
    dsimp only at hacc hcnt
    subst hacc
    refine ⟨s2, ?_, ?_⟩
    · simp only [h1, hcc, if_true, hp]
    · rw [hcnt, signalCount_emitEv_step, h1cnt]
      simp [signalCount_emitAll, signalCount, isSignalEv]
  · obtain ⟨s2, h2, h2cnt⟩ := sequentialLoop_noSuccess env hflag hana highValue.length
      highValue 0 [] s1
    refine ⟨s2, ?_, ?_⟩
    · simp only [h1, hcc, if_false]
      exact h2
    · rw [h2cnt, h1cnt]
      simp [signalCount_emitAll, signalCount, isSignalEv]

theorem signalCount_replicate_step (n : Nat) (t ag : String) :
    signalCount (List.replicate n (Ev.step t ag)) = 0 := by
  induction n with
  | zero => rfl
  | succ k ih => simp [List.replicate, signalCount, isSignalEv, ih]

theorem stageFromFilter_empty (env : WFEnv) (s : WFSt) :
    (stageFromFilter env [] s).2 = BodyRes.earlyCompleted ∧
    signalCount (stageFromFilter env [] s).1.events = signalCount s.events := by
  unfold stageFromFilter
  simp only [List.isEmpty_nil, if_true, List.take_nil, List.map_nil]
  constructor
  · exact (earlyCompletionExit_spec _).1
  · rw [(earlyCompletionExit_spec _).2]
    simp [signalCount_emitAll, signalCount_emitEv_step, signalCount]

theorem stageFromFilter_noSuccess (env : WFEnv) (hflag : ∀ n, env.flag n = false)
    (hana : ∀ item sig, env.analyze item ≠ AnalyzeRes.ok sig)
    (hv : List Item) (s : WFSt) :
    (stageFromFilter env hv s).2 = BodyRes.earlyCompleted ∧
    signalCount (stageFromFilter env hv s).1.events = signalCount s.events := by
  unfold stageFromFilter
  by_cases hhv : hv.isEmpty
  · rw [if_pos hhv]
    constructor
    · exact (earlyCompletionExit_spec _).1
    · rw [(earlyCompletionExit_spec _).2]
      simp [signalCount_emitAll, signalCount_emitEv_step, signalCount_map_steps,
        signalCount_replicate_step]
  · obtain ⟨s', hA, hAcnt⟩ := stageAnalysis_noSuccess env hflag hana hv
      (emitAll ((hv.take 5).map (fun _ => Ev.step "signal" "TrendAgent"))
        (emitEv (.step "result" "TrendAgent") s))
    rw [if_neg hhv]
    simp only [hA]
    unfold stageTail
    simp only [List.isEmpty_nil, if_true]
    constructor
    · exact (earlyCompletionExit_spec s').1
    · rw [(earlyCompletionExit_spec s').2, hAcnt]
      simp [signalCount_emitAll, signalCount_emitEv_step, signalCount_map_steps,
        signalCount_replicate_step]

/-! ### Claim C6 -/

/-- Claim C6: absent cancellation, if the merge phase yields zero items, or
LLM filtering yields zero high-value signals, or per-item analysis yields
zero successfully analyzed signals, the workflow thread terminates with
status completed — never failed — having emitted zero signal events, and the
record persisted at finalization is completed with `signal_count = 0`. -/
theorem early_exit_zero_signals (env : WFEnv)
    (hflag : ∀ n, env.flag n = false)
    (hcase : mergedNews env = [] ∨
      env.llmFilter (mergedNews env) = .ok [] ∨
      ((∃ hv, env.llmFilter (mergedNews env) = .ok hv) ∧
        ∀ item sig, env.analyze item ≠ AnalyzeRes.ok sig)) :
    (runWorkflowModel env).2 = RunStatus.completed ∧
    signalCount (runWorkflowModel env).1.events = 0 ∧
    (∀ reg runId, isRunningFor reg runId = false →
      (executeWorkflow env reg runId).1.status = "completed" ∧
      (executeWorkflow env reg runId).1.errorMessage = none ∧
      (executeWorkflow env reg runId).1.signalCount = 0) := by
  obtain ⟨s0, hpre, hcnt0⟩ := stagePrelude_flagFalse env hflag
  have hbody : (runBody env).2 = BodyRes.earlyCompleted ∧
      signalCount (runBody env).1.events = 0 := by
    by_cases hme : (mergedNews env).isEmpty
    · constructor
      · unfold runBody
        simp only [hpre, if_pos hme]
        exact (earlyCompletionExit_spec s0).1
      · unfold runBody
        simp only [hpre, if_pos hme]
        rw [(earlyCompletionExit_spec s0).2, hcnt0]
    · have hme' : ¬ mergedNews env = [] := by
        intro h
        rw [h] at hme
        exact hme (by rfl)
      rcases hcase with hempty | hfilter | ⟨⟨hv, hfil⟩, hana⟩
      · exact absurd hempty hme'
      · have hred := stageFromFilter_empty env
          (emitAll [.phase "信号筛选" 35, .step "thought" "TrendAgent"] s0)
        constructor
        · unfold runBody
          simp only [hpre, if_neg hme, hfilter]
          exact hred.1
        · unfold runBody
          simp only [hpre, if_neg hme, hfilter]
          rw [hred.2]
          simp [signalCount_emitAll, signalCount, isSignalEv, hcnt0]
      · have hred := stageFromFilter_noSuccess env hflag hana hv
          (emitAll [.phase "信号筛选" 35, .step "thought" "TrendAgent"] s0)
        constructor
        · unfold runBody
          simp only [hpre, if_neg hme, hfil]
          exact hred.1
        · unfold runBody
          simp only [hpre, if_neg hme, hfil]
          rw [hred.2]
          simp [signalCount_emitAll, signalCount, isSignalEv, hcnt0]
  rcases hrb : runBody env with ⟨s, res⟩
  rw [hrb] at hbody
  dsimp only at hbody
  obtain ⟨hres, hscnt⟩ := hbody
  subst hres
  refine ⟨?_, ?_, ?_⟩
  · simp only [runWorkflowModel, hrb]
  · simp only [runWorkflowModel, hrb]
    exact hscnt
  · intro reg runId hreg
    unfold isRunningFor at hreg
    unfold executeWorkflow runAsync
    simp only [hreg, Bool.false_eq_true, if_false, runWorkflowModel, hrb]
    exact ⟨trivial, trivial, hscnt⟩

/-- Witness for C6: the concrete environment `envC6` (no query, no sources,
empty stored backlog) completes with zero signals and persists completed with
`signal_count = 0`. -/
theorem early_exit_zero_signals_witness :
    (runWorkflowModel envC6).2 = RunStatus.completed ∧
    signalCount (runWorkflowModel envC6).1.events = 0 ∧
    (executeWorkflow envC6 ⟨[], []⟩ "r1").1.status = "completed" ∧
    (executeWorkflow envC6 ⟨[], []⟩ "r1").1.signalCount = 0 := by
  have h := early_exit_zero_signals envC6 (fun _ => rfl) (Or.inl (by decide))
  refine ⟨h.1, h.2.1, ?_, ?_⟩
  · exact (h.2.2 ⟨[], []⟩ "r1" (by decide)).1
  · exact (h.2.2 ⟨[], []⟩ "r1" (by decide)).2.2

/-! ### Claim C7 -/

theorem apv_append (a b : List Ev) :
    analysisProgressValues (a ++ b) =
      analysisProgressValues a ++ analysisProgressValues b := by
  induction a with
  | nil => rfl
  | cons e rest ih =>
    cases e with
    | phase nm p =>
      by_cases h : nm = "分析信号" <;> simp [analysisProgressValues, h, ih]
    | step t ag => simp [analysisProgressValues, ih]
    | signal => simp [analysisProgressValues, ih]
    | chart t => simp [analysisProgressValues, ih]
    | graph => simp [analysisProgressValues, ih]

theorem apv_emitEv_step (t ag : String) (s : WFSt) :
    analysisProgressValues (emitEv (.step t ag) s).events =
      analysisProgressValues s.events := by
  simp [emitEv, apv_append, analysisProgressValues]

theorem apv_emitEv_signal (s : WFSt) :
    analysisProgressValues (emitEv .signal s).events = analysisProgressValues s.events := by
  simp [emitEv, apv_append, analysisProgressValues]

theorem apv_emitEv_chart (t : String) (s : WFSt) :
    analysisProgressValues (emitEv (.chart t) s).events = analysisProgressValues s.events := by
  simp [emitEv, apv_append, analysisProgressValues]

theorem apv_emitEv_graph (s : WFSt) :
    analysisProgressValues (emitEv .graph s).events = analysisProgressValues s.events := by
  simp [emitEv, apv_append, analysisProgressValues]

theorem apv_emitEv_phaseA (p : Nat) (s : WFSt) :
    analysisProgressValues (emitEv (.phase "分析信号" p) s).events =
      analysisProgressValues s.events ++ [p] := by
  simp [emitEv, apv_append, analysisProgressValues]

theorem apv_chartEmitsParallel (env : WFEnv) :
    ∀ (ts : List String) (s : WFSt),
      analysisProgressValues (chartEmitsParallel env ts s).events =
        analysisProgressValues s.events := by
  intro ts
  induction ts with
  | nil => intro s; rfl
  | cons t rest ih =>
    intro s
    by_cases ht : t = ""
    · simp [chartEmitsParallel, ht, ih]
    · by_cases hcf : env.chartFetch t <;>
        simp [chartEmitsParallel, ht, hcf, ih, apv_emitEv_chart]

theorem apv_chartEmitsSequential (env : WFEnv) :
    ∀ (ts : List String) (s : WFSt),
      analysisProgressValues (chartEmitsSequential env ts s).events =
        analysisProgressValues s.events := by
  intro ts
  induction ts with
  | nil => intro s; rfl
  | cons t rest ih =>
    intro s
    by_cases ht : t = ""
    · simp [chartEmitsSequential, ht, ih]
    · by_cases hcf : env.chartFetch t <;>
        simp [chartEmitsSequential, ht, hcf, ih, apv_emitEv_chart, apv_emitEv_step]

theorem range_map_shift (total base n : Nat) :
    (List.range (n + 1)).map (fun j => analysisProgress total (base + j + 1)) =
      analysisProgress total (base + 1) ::
        (List.range n).map (fun j => analysisProgress total (base + 1 + j + 1)) := by
  rw [List.range_succ_eq_map, List.map_cons, List.map_map]
  congr 1
  apply List.map_congr_left
  intro j hj
  simp only [Function.comp_apply]
  congr 1
  omega

theorem parallelLoop_progressValues (env : WFEnv) (hflag : ∀ n, env.flag n = false)
    (total : Nat) :
    ∀ (items : List Item) (cc : Nat) (acc : List Sig) (s : WFSt),
      analysisProgressValues (parallelLoop env total items cc acc s).1.events =
        analysisProgressValues s.events ++
          (List.range items.length).map (fun j => analysisProgress total (cc + j + 1)) := by
  intro items
  induction items with
  | nil => intro cc acc s; simp [parallelLoop]
  | cons item rest ih =>
    intro cc acc s
    have hc := checkCancelled_flagFalse env hflag s
    have hgr : ∀ (b : Bool) (st : WFSt),
        analysisProgressValues (if b then emitEv .graph st else st).events =
          analysisProgressValues st.events := by
      intro b st; cases b <;> simp [apv_emitEv_graph]
    cases hr : env.analyze item with
    | ok sig =>
      simp only [parallelLoop, hc, hr]
      rw [ih, hgr, apv_chartEmitsParallel, apv_emitEv_step, apv_emitEv_signal,
        apv_emitEv_phaseA]
      rw [List.length_cons, range_map_shift total cc rest.length, List.append_assoc]
      rfl
    | noSig =>
      simp only [parallelLoop, hc, hr]
      rw [ih, apv_emitEv_phaseA]
      rw [List.length_cons, range_map_shift total cc rest.length, List.append_assoc]
      rfl
    | raises msg =>
      simp only [parallelLoop, hc, hr]
      rw [ih, apv_emitEv_phaseA]
      rw [List.length_cons, range_map_shift total cc rest.length, List.append_assoc]
      rfl

theorem sequentialLoop_progressValues (env : WFEnv) (hflag : ∀ n, env.flag n = false)
    (total : Nat) :
    ∀ (items : List Item) (i : Nat) (acc : List Sig) (s : WFSt),
      ∃ s' acc', sequentialLoop env total items i acc s = .ok (s', acc') ∧
        analysisProgressValues s'.events =
          analysisProgressValues s.events ++
            (List.range items.length).map (fun j => analysisProgress total (i + j + 1)) := by
  intro items
  induction items with
  | nil => intro i acc s; exact ⟨s, acc, rfl, by simp [sequentialLoop]⟩
  | cons item rest ih =>
    intro i acc s
    have hif1 : ∀ (b : Bool) (st : WFSt),
        analysisProgressValues (if b then emitEv (.step "thought" "FinAgent") st else st).events =
          analysisProgressValues st.events := by
      intro b st; cases b <;> simp [apv_emitEv_step]
    have hif2 : ∀ (b : Bool) (st : WFSt),
        analysisProgressValues (if b then emitEv .graph st else st).events =
          analysisProgressValues st.events := by
      intro b st; cases b <;> simp [apv_emitEv_graph]
    cases hr : env.analyze item with
    | ok sig =>
      obtain ⟨s', acc', h1, h2⟩ := ih (i + 1) (acc ++ [sig]) _
      refine ⟨s', acc', ?_, ?_⟩
      · simp only [sequentialLoop, checkCancelled_flagFalse env hflag, hr]
        exact h1
      · rw [h2, hif2, hif1, apv_chartEmitsSequential, apv_emitEv_step, apv_emitEv_signal,
          apv_emitEv_step, apv_emitEv_phaseA]
        rw [List.length_cons, range_map_shift total i rest.length, List.append_assoc]
        rfl
    | noSig =>
      obtain ⟨s', acc', h1, h2⟩ := ih (i + 1) acc _
      refine ⟨s', acc', ?_, ?_⟩
      · simp only [sequentialLoop, checkCancelled_flagFalse env hflag, hr]
        exact h1
      · rw [h2, apv_emitEv_step, apv_emitEv_step, apv_emitEv_phaseA]
        rw [List.length_cons, range_map_shift total i rest.length, List.append_assoc]
        rfl
    | raises msg =>
      obtain ⟨s', acc', h1, h2⟩ := ih (i + 1) acc _
      refine ⟨s', acc', ?_, ?_⟩
      · simp only [sequentialLoop, checkCancelled_flagFalse env hflag, hr]
        exact h1
      · rw [h2, apv_emitEv_step, apv_emitEv_step, apv_emitEv_phaseA]
        rw [List.length_cons, range_map_shift total i rest.length, List.append_assoc]
        rfl

/-- Claim C7: the analysis-phase progress emitted after the c-th completion
equals `50 + floor(25 c / N)` for `1 ≤ c ≤ N`; every such value lies in
`[50, 75]`; the value is non-decreasing in the completion counter and reaches
exactly 75 at `c = N`; and, absent cancellation, both the parallel loop and
the sequential loop emit exactly the progress sequence
`[analysisProgress N 1, …, analysisProgress N N]` for an N-item batch. -/
theorem analysis_progress_spec (env : WFEnv) (N : Nat) (hN : 0 < N) :
    (∀ c, 1 ≤ c → c ≤ N → 50 ≤ analysisProgress N c ∧ analysisProgress N c ≤ 75) ∧
    (∀ c cp, c ≤ cp → analysisProgress N c ≤ analysisProgress N cp) ∧
    analysisProgress N N = 75 ∧
    (∀ (items : List Item) (s : WFSt), (∀ n, env.flag n = false) → N = items.length →
      (analysisProgressValues (parallelLoop env N items 0 [] s).1.events =
        analysisProgressValues s.events ++
          (List.range N).map (fun j => analysisProgress N (j + 1))) ∧
      (∃ s' acc', sequentialLoop env N items 0 [] s = .ok (s', acc') ∧
        analysisProgressValues s'.events =
          analysisProgressValues s.events ++
            (List.range N).map (fun j => analysisProgress N (j + 1)))) := by
  have hdivN : 25 * N / N = 25 := Nat.mul_div_cancel 25 hN
  refine ⟨?_, ?_, ?_, ?_⟩
  · intro c h1 h2
    constructor
    · exact Nat.le_add_right 50 _
    · have hle : 25 * c ≤ 25 * N := Nat.mul_le_mul_left 25 h2
      have := Nat.div_le_div_right (c := N) hle
      unfold analysisProgress
      omega
  · intro c cp hc
    have hle : 25 * c ≤ 25 * cp := Nat.mul_le_mul_left 25 hc
    have := Nat.div_le_div_right (c := N) hle
    unfold analysisProgress
    omega
  · unfold analysisProgress
    omega
  · intro items s hflag hlen
    constructor
    · subst hlen
      have h := parallelLoop_progressValues env hflag items.length items 0 [] s
      rw [h]
      congr 1
      apply List.map_congr_left
      intro j hj
      congr 1
      omega
    · subst hlen
      obtain ⟨s', acc', h1, h2⟩ :=
        sequentialLoop_progressValues env hflag items.length items 0 [] s
      refine ⟨s', acc', h1, ?_⟩
      rw [h2]
      congr 1
      apply List.map_congr_left
      intro j hj
      congr 1
      omega

/-- Witness for C7 at `N = 2` with the cancellation-free environment
`envC2`: the bounds and terminal value hold, and the parallel loop over two
items emits exactly the progress values 62 and 75. -/
theorem analysis_progress_spec_witness :
    (50 ≤ analysisProgress 2 1 ∧ analysisProgress 2 1 ≤ 75) ∧
    analysisProgress 2 2 = 75 ∧
    analysisProgressValues (parallelLoop envC2 2 [⟨0⟩, ⟨1⟩] 0 [] ⟨0, []⟩).1.events =
      [62, 75] := by
  have h := analysis_progress_spec envC2 2 (by decide)
  refine ⟨h.1 1 (by decide) (by decide), h.2.2.1, ?_⟩
  have hp := (h.2.2.2 [⟨0⟩, ⟨1⟩] ⟨0, []⟩ (fun _ => rfl) rfl).1
  rw [hp]
  decide

end DeepEar
